import Mathlib

/-!
Shallow embedding of the audio/media playback coordinator of the ReWord
repository (module `utils/audio.ts`, re-exported through `App.tsx`).

The module-level mutable variables `cachedVoices`, `isLoaded` and
`currentAudio`, together with the browser speech-synthesis utterance queue,
the set of constructed `HTMLAudioElement` objects and the dispatched
`reword:stop-media` events, are collected into one explicit state record
`AudioState`.  Audio elements are identified by the order of their
construction (`nextId` is the identity of the next `new Audio(url)`), and the
element table is an association list from identity to element state.

Asynchronous behaviour (the `ended` / `error` events of an audio element, the
`voiceschanged` notifications and the 2000 ms timeout of `waitForVoices`) is
modelled by explicit event steps and an environment record, so every source
function becomes a pure state transformer.
-/

/-- A `SpeechSynthesisVoice`: the attributes the source reads are `name` and
`lang` (the BCP-47 locale tag). -/
structure Voice where
  name : String
  lang : String
deriving DecidableEq

/-- A `SpeechSynthesisUtterance` as configured by `playTextToSpeech`:
text, rate, pitch, selected voice and language tag. -/
structure Utterance where
  text : String
  rate : ℚ
  pitch : ℚ
  voice : Option Voice
  lang : String
deriving DecidableEq

/-- The state of one `HTMLAudioElement` constructed by `new Audio(url)`:
its source url, its `playbackRate`, whether it is currently playing, and its
`currentTime` position. -/
structure AudioElem where
  url : String
  playbackRate : ℚ
  playing : Bool
  currentTime : ℚ
deriving DecidableEq

/-- The process-wide state of the playback coordinator:
`cachedVoices` / `isLoaded` are the module-level voice cache,
`currentAudio` is the tracked handle (`currentAudio` in the source),
`elems` maps each constructed audio element identity to its state,
`nextId` is the identity the next constructed element receives,
`synthQueue` is the platform speech-synthesis utterance queue,
`synthPaused` is `speechSynthesis.paused`, and
`stopEvents` counts the dispatched `reword:stop-media` broadcast events. -/
structure AudioState where
  cachedVoices : List Voice
  isLoaded : Bool
  currentAudio : Option Nat
  elems : List (Nat × AudioElem)
  nextId : Nat
  synthQueue : List Utterance
  synthPaused : Bool
  stopEvents : Nat
deriving DecidableEq

/-- The state at module load: no voices cached, no tracked audio, no
elements constructed, empty utterance queue, no stop events dispatched. -/
def initState : AudioState :=
  { cachedVoices := []
    isLoaded := false
    currentAudio := none
    elems := []
    nextId := 0
    synthQueue := []
    synthPaused := false
    stopEvents := 0 }

/-- Lookup of an audio element by identity in the element table. -/
def lookupElem (a : Nat) : List (Nat × AudioElem) → Option AudioElem
  | [] => none
  | (i, e) :: rest => if i = a then some e else lookupElem a rest

/-- Update the element with identity `a` (first occurrence) by `f`. -/
def modifyElem (a : Nat) (f : AudioElem → AudioElem) :
    List (Nat × AudioElem) → List (Nat × AudioElem)
  | [] => []
  | (i, e) :: rest =>
      if i = a then (i, f e) :: rest else (i, e) :: modifyElem a f rest

/-- Effect of `audio.pause(); audio.currentTime = 0` on an element. -/
def pauseReset (e : AudioElem) : AudioElem :=
  { e with playing := false, currentTime := 0 }

/-- The function `stopAudio` (the spec's `stopAll`): cancels speech synthesis (which
drops every queued utterance), pauses and rewinds the tracked audio element
and releases the handle, then dispatches the `reword:stop-media` event. -/
def stopAudio (s : AudioState) : AudioState :=
  let s1 := { s with synthQueue := [] }
  let s2 :=
    match s1.currentAudio with
    | some a =>
        { s1 with elems := modifyElem a pauseReset s1.elems, currentAudio := none }
    | none => s1
  { s2 with stopEvents := s2.stopEvents + 1 }

theorem lookupElem_modify_self (a : Nat) (f : AudioElem → AudioElem)
    (l : List (Nat × AudioElem)) :
    lookupElem a (modifyElem a f l) = Option.map f (lookupElem a l) := by
  induction l with
  | nil => rfl
  | cons p rest ih =>
      obtain ⟨i, e⟩ := p
      by_cases h : i = a
      · simp [modifyElem, lookupElem, h]
      · simp [modifyElem, lookupElem, h, ih]

theorem lookupElem_modify_ne {i a : Nat} (h : i ≠ a) (f : AudioElem → AudioElem)
    (l : List (Nat × AudioElem)) :
    lookupElem i (modifyElem a f l) = lookupElem i l := by
  induction l with
  | nil => rfl
  | cons p rest ih =>
      obtain ⟨j, e⟩ := p
      by_cases hj : j = a
      · have hji : j ≠ i := by rintro rfl; exact h hj
        simp [modifyElem, lookupElem, hj, hji, Ne.symm h, ih]
      · simp [modifyElem, lookupElem, hj, ih]

theorem stopAudio_currentAudio (s : AudioState) :
    (stopAudio s).currentAudio = none := by
  cases h : s.currentAudio <;> simp [stopAudio, h]

theorem stopAudio_synthQueue (s : AudioState) :
    (stopAudio s).synthQueue = [] := by
  cases h : s.currentAudio <;> simp [stopAudio, h]

theorem stopAudio_stopEvents (s : AudioState) :
    (stopAudio s).stopEvents = s.stopEvents + 1 := by
  cases h : s.currentAudio <;> simp [stopAudio, h]

theorem stopAudio_nextId (s : AudioState) :
    (stopAudio s).nextId = s.nextId := by
  cases h : s.currentAudio <;> simp [stopAudio, h]

theorem stopAudio_cachedVoices (s : AudioState) :
    (stopAudio s).cachedVoices = s.cachedVoices := by
  cases h : s.currentAudio <;> simp [stopAudio, h]

theorem stopAudio_isLoaded (s : AudioState) :
    (stopAudio s).isLoaded = s.isLoaded := by
  cases h : s.currentAudio <;> simp [stopAudio, h]

theorem stopAudio_elems_none (s : AudioState) (h : s.currentAudio = none) :
    (stopAudio s).elems = s.elems := by
  simp [stopAudio, h]

theorem stopAudio_elems_some (s : AudioState) {a : Nat}
    (h : s.currentAudio = some a) :
    (stopAudio s).elems = modifyElem a pauseReset s.elems := by
  simp [stopAudio, h]

/-! ## Remote/local media player (`playUrl` and the element events) -/

/-- The state of a new `Audio(url)` element right after `audio.playbackRate =
playbackRate; audio.play()`: registered at position 0 and playing. -/
def mkAudio (url : String) (playbackRate : ℚ) : AudioElem :=
  { url := url, playbackRate := playbackRate, playing := true, currentTime := 0 }

/-- The synchronous part of `playUrl(url, playbackRate)`: first `stopAudio()`,
then a new audio element is constructed (receiving the next identity),
registered as the tracked handle (`currentAudio = audio`), given the requested
rate and started.  Returns the new state and the new element's identity. -/
def playUrlStart (url : String) (playbackRate : ℚ) (s : AudioState) :
    AudioState × Nat :=
  let s1 := stopAudio s
  let a := s1.nextId
  ({ s1 with
      elems := (a, mkAudio url playbackRate) :: s1.elems
      currentAudio := some a
      nextId := a + 1 }, a)

/-- A later `onended` / `onerror` / rejected-`play()` event of the element
with identity `a`: the element is no longer playing (the browser fires these
events on an element that has stopped), and the handler body
`if (currentAudio === audio) currentAudio = null` releases the handle only
when it still points at this same element. -/
def settle (a : Nat) (s : AudioState) : AudioState :=
  let s1 := { s with elems := modifyElem a (fun e => { e with playing := false }) s.elems }
  if s1.currentAudio = some a then { s1 with currentAudio := none } else s1

/-- How one `playUrl` playback session ends: the `ended` event (natural end),
the `error` event, or the `play()` promise rejecting (autoplay block). -/
inductive PlayOutcome where
  | ended
  | error
  | blocked
deriving DecidableEq

/-- A complete `playUrl(url, playbackRate)` session, run to the settlement of
the promise it returns: after the synchronous start, the session's outcome
event fires, and the promise resolves on `ended` and rejects on `error` or on
a blocked `play()`. -/
def playUrlRun (url : String) (playbackRate : ℚ) (o : PlayOutcome)
    (s : AudioState) : AudioState × Except Unit Unit :=
  let p := playUrlStart url playbackRate s
  match o with
  | PlayOutcome.ended => (settle p.2 p.1, Except.ok ())
  | PlayOutcome.error => (settle p.2 p.1, Except.error ())
  | PlayOutcome.blocked => (settle p.2 p.1, Except.error ())

/-! ## Voice cache (`preloadVoices` / `waitForVoices`) -/

/-- The `updateVoices` closure inside `preloadVoices`, run with the platform
voice list it reads from `synth.getVoices()`: the cache is overwritten (and
marked loaded) only when the fetched list is non-empty.  It runs once at
preload and again on every `voiceschanged` notification. -/
def updateVoices (platform : List Voice) (s : AudioState) : AudioState :=
  if platform.length > 0 then
    { s with cachedVoices := platform, isLoaded := true }
  else s

/-- Environment of one `waitForVoices()` call: what `synth.getVoices()`
returns synchronously at the call, the `voiceschanged` notifications (time in
milliseconds after the call, and the list the handler then fetches), and what
`synth.getVoices()` returns when the 2000 ms timeout fires. -/
structure WEnv where
  voicesAtCall : List Voice
  changeEvents : List (Nat × List Voice)
  voicesAtTimeout : List Voice
deriving DecidableEq

/-- The first `voiceschanged` notification that resolves the waiting promise:
it must arrive before the 2000 ms timeout and deliver a non-empty list (the
handler ignores empty lists and keeps waiting). -/
def firstChange (evs : List (Nat × List Voice)) : Option (Nat × List Voice) :=
  evs.find? (fun p => decide (p.1 < 2000 ∧ p.2 ≠ []))

/-- The call `waitForVoices()` run to resolution.  Returns the state, the voice list
the promise resolves with, and the resolution time in milliseconds:
resolves at once with the cache when loaded and non-empty; else at once with
a non-empty synchronous `getVoices()`; else with the first non-empty
`voiceschanged` delivery before the timeout; else at 2000 ms with whatever
`getVoices()` then returns (possibly empty, and not written to the cache). -/
def waitForVoicesRun (w : WEnv) (s : AudioState) :
    AudioState × List Voice × Nat :=
  if s.isLoaded = true ∧ s.cachedVoices ≠ [] then (s, s.cachedVoices, 0)
  else if w.voicesAtCall ≠ [] then
    ({ s with cachedVoices := w.voicesAtCall, isLoaded := true }, w.voicesAtCall, 0)
  else
    match firstChange w.changeEvents with
    | some (t, v) => ({ s with cachedVoices := v, isLoaded := true }, v, t)
    | none => (s, w.voicesAtTimeout, 2000)

/-! ## Text-to-speech adapter (`playTextToSpeech`) -/

/-- The two accents the playback entry points accept. -/
inductive Accent where
  | US
  | UK
deriving DecidableEq

/-- Source line `const langTag = accent === 'UK' ? 'en-GB' : 'en-US'`. -/
def langTagOf (accent : Accent) : String :=
  if accent = Accent.UK then "en-GB" else "en-US"

/-- Whether the first character list is an initial segment of the second. -/
def charsLeadIn : List Char → List Char → Bool
  | [], _ => true
  | _ :: _, [] => false
  | c :: cs, d :: ds => c == d && charsLeadIn cs ds

/-- The platform's `String.prototype.startsWith`. -/
def strStartsWith (s pre : String) : Bool :=
  charsLeadIn pre.data s.data

/-- Source expression `voices.find(v => v.lang === langTag) || voices.find(v =>
v.lang.startsWith('en'))`: exact locale match first, else the first voice of
the English language family. -/
def selectVoice (voices : List Voice) (langTag : String) : Option Voice :=
  Option.orElse (voices.find? (fun v => v.lang == langTag))
    (fun _ => voices.find? (fun v => strStartsWith v.lang "en"))

/-- Source line `const safeRate = Math.max(0.1, Math.min(10, rate))`. -/
def safeRate (rate : ℚ) : ℚ :=
  max (1 / 10) (min 10 rate)

/-- The utterance built in each iteration of the `playTextToSpeech` loop:
clamped rate, pitch 1.0, and either the selected voice with its own language
tag or no voice with the target tag as default. -/
def mkUtterance (text : String) (rate : ℚ) (targetVoice : Option Voice)
    (langTag : String) : Utterance :=
  { text := text
    rate := safeRate rate
    pitch := 1
    voice := targetVoice
    lang :=
      match targetVoice with
      | some v => v.lang
      | none => langTag }

/-- The call `playTextToSpeech(text, accent, rate, repeat)` (the spec's `speak`), run
to the settlement of its promise: a no-op for empty text or `repeat <= 0`;
otherwise it calls `stopAudio()`, resumes a paused synthesizer, awaits
`waitForVoices()`, selects the voice, and queues `repeat` utterances.  Every
failure inside the `try` block would be caught and logged, so the promise
always resolves. -/
def playTextToSpeechRun (text : String) (accent : Accent) (rate : ℚ)
    (repeatCount : Int) (w : WEnv) (s : AudioState) :
    AudioState × Except Unit Unit :=
  if text = "" ∨ repeatCount ≤ 0 then (s, Except.ok ())
  else
    let s1 := stopAudio s
    let s2 := { s1 with synthPaused := false }
    let r := waitForVoicesRun w s2
    let s3 := r.1
    let voices := r.2.1
    let langTag := langTagOf accent
    let targetVoice := selectVoice voices langTag
    let utt := mkUtterance text rate targetVoice langTag
    ({ s3 with
        synthQueue := s3.synthQueue ++ List.replicate repeatCount.toNat utt },
      Except.ok ())

/-! ## Dictionary pronunciation URL (`encodeURIComponent` and the endpoint) -/

/-- UTF-8 bytes of a character, for percent-encoding. -/
def utf8Bytes (c : Char) : List Nat :=
  let n := c.toNat
  if n < 128 then [n]
  else if n < 2048 then [192 + n / 64, 128 + n % 64]
  else if n < 65536 then [224 + n / 4096, 128 + n / 64 % 64, 128 + n % 64]
  else [240 + n / 262144, 128 + n / 4096 % 64, 128 + n / 64 % 64, 128 + n % 64]

/-- Upper-case hexadecimal digit. -/
def hexDigit (n : Nat) : Char :=
  if n < 10 then Char.ofNat (48 + n) else Char.ofNat (55 + n)

/-- Percent-encoding of one byte. -/
def percentByte (b : Nat) : String :=
  String.mk ['%', hexDigit (b / 16), hexDigit (b % 16)]

/-- Characters `encodeURIComponent` leaves unescaped. -/
def isUnreserved (c : Char) : Bool :=
  c.isAlpha || c.isDigit || c == '-' || c == '_' || c == '.' || c == '!' ||
    c == '~' || c == '*' || c == Char.ofNat 39 || c == '(' || c == ')'

/-- Encoding of one character. -/
def encodeChar (c : Char) : String :=
  if isUnreserved c then String.mk [c]
  else String.join ((utf8Bytes c).map percentByte)

/-- The platform's `encodeURIComponent`. -/
def encodeURIComponent (text : String) : String :=
  String.join (text.data.map encodeChar)

/-- The dictionary pronunciation URL built by `playWordAudio` and
`playSentenceAudio`: `type` is 1 for UK and 2 for US. -/
def dictVoiceUrl (text : String) (accent : Accent) : String :=
  "https://dict.youdao.com/dictvoice?audio=" ++ encodeURIComponent text ++
    "&type=" ++ (if accent = Accent.UK then "1" else "2")

/-! ## Policy layer (`playWordAudio` / `playSentenceAudio`) -/

/-- One attempted playback strategy, recorded for observation: a remote
`playUrl` attempt, or a call into the text-to-speech adapter. -/
inductive Attempt where
  | remote (url : String) (rate : ℚ)
  | tts (text : String) (accent : Accent) (rate : ℚ) (repeatCount : Int)
deriving DecidableEq

/-- The call `playWordAudio(text, accent, speed)`, run to the settlement of its
promise, with `o` the outcome of the dictionary-URL session: a no-op for
empty text; otherwise one `playUrl` attempt on the dictionary URL and, only
when that rejects, one `playTextToSpeech(text, accent, speed)` call (which
uses the default repeat count 1).  Also returns the list of attempted
strategies and the settlement of the returned promise. -/
def playWordAudioRun (text : String) (accent : Accent) (speed : ℚ)
    (o : PlayOutcome) (w : WEnv) (s : AudioState) :
    AudioState × List Attempt × Except Unit Unit :=
  if text = "" then (s, [], Except.ok ())
  else
    let url := dictVoiceUrl text accent
    let p := playUrlRun url speed o s
    match p.2 with
    | Except.ok _ => (p.1, [Attempt.remote url speed], Except.ok ())
    | Except.error _ =>
        let q := playTextToSpeechRun text accent speed 1 w p.1
        (q.1, [Attempt.remote url speed, Attempt.tts text accent speed 1],
          Except.ok ())

/-- The shared tail of `playSentenceAudio` after the optional explicit-URL
attempt: one `playUrl` attempt on the dictionary URL for `text`, falling back
to `playTextToSpeech(text, accent, speed)` when it rejects.  `pre` is the
list of strategies already attempted. -/
def playSentenceFallback (text : String) (accent : Accent) (speed : ℚ)
    (o2 : PlayOutcome) (w : WEnv) (s : AudioState) (pre : List Attempt) :
    AudioState × List Attempt × Except Unit Unit :=
  let url := dictVoiceUrl text accent
  let p := playUrlRun url speed o2 s
  match p.2 with
  | Except.ok _ => (p.1, pre ++ [Attempt.remote url speed], Except.ok ())
  | Except.error _ =>
      let q := playTextToSpeechRun text accent speed 1 w p.1
      (q.1, pre ++ [Attempt.remote url speed, Attempt.tts text accent speed 1],
        Except.ok ())

/-- The call `playSentenceAudio(text, explicitUrl, accent, speed)`, run to the
settlement of its promise, with `o1` the outcome of the explicit-URL session
(when one is attempted) and `o2` the outcome of the dictionary-URL session:
a truthy (present and non-empty) explicit URL is tried first and its success
returns at once; on its failure, and when no truthy explicit URL is supplied,
the dictionary URL for `text` is tried, falling back to the text-to-speech
adapter.  There is no empty-text guard. -/
def playSentenceAudioRun (text : String) (explicitUrl : Option String)
    (accent : Accent) (speed : ℚ) (o1 o2 : PlayOutcome) (w : WEnv)
    (s : AudioState) : AudioState × List Attempt × Except Unit Unit :=
  match explicitUrl with
  | some u =>
      if u = "" then playSentenceFallback text accent speed o2 w s []
      else
        let p := playUrlRun u speed o1 s
        match p.2 with
        | Except.ok _ => (p.1, [Attempt.remote u speed], Except.ok ())
        | Except.error _ =>
            playSentenceFallback text accent speed o2 w p.1
              [Attempt.remote u speed]
  | none => playSentenceFallback text accent speed o2 w s []

/-! ## Traces of entry-point calls and events -/

/-- One step of the coordinator: a call to one of the playback entry points,
a later element event, or a `voiceschanged` refresh of the preloaded cache. -/
inductive Step where
  | stop
  | playUrl (url : String) (playbackRate : ℚ)
  | ended (a : Nat)
  | error (a : Nat)
  | speak (text : String) (accent : Accent) (rate : ℚ) (repeatCount : Int) (w : WEnv)
  | word (text : String) (accent : Accent) (speed : ℚ) (o : PlayOutcome) (w : WEnv)
  | sentence (text : String) (explicitUrl : Option String) (accent : Accent)
      (speed : ℚ) (o1 o2 : PlayOutcome) (w : WEnv)
  | voicesChanged (v : List Voice)

/-- Effect of one step on the coordinator state. -/
def runStep (st : Step) (s : AudioState) : AudioState :=
  match st with
  | Step.stop => stopAudio s
  | Step.playUrl url playbackRate => (playUrlStart url playbackRate s).1
  | Step.ended a => settle a s
  | Step.error a => settle a s
  | Step.speak text accent rate repeatCount w =>
      (playTextToSpeechRun text accent rate repeatCount w s).1
  | Step.word text accent speed o w => (playWordAudioRun text accent speed o w s).1
  | Step.sentence text explicitUrl accent speed o1 o2 w =>
      (playSentenceAudioRun text explicitUrl accent speed o1 o2 w s).1
  | Step.voicesChanged v => updateVoices v s

/-- Effect of a sequence of steps, first step first. -/
def runAll : List Step → AudioState → AudioState
  | [], s => s
  | st :: rest, s => runAll rest (runStep st s)

/-- The element with identity `i` is in the playing state. -/
def ElemPlaying (s : AudioState) (i : Nat) : Prop :=
  ∃ e, lookupElem i s.elems = some e ∧ e.playing = true

/-- Every playing element is the tracked one. -/
def TracksPlaying (s : AudioState) : Prop :=
  ∀ i, ElemPlaying s i → s.currentAudio = some i

/-- At most one audio element is in the playing state. -/
def AtMostOnePlaying (s : AudioState) : Prop :=
  ∀ i j, ElemPlaying s i → ElemPlaying s j → i = j

/-! ## Tracking invariant: every playing element is the tracked one -/

theorem tracksPlaying_atMostOne (s : AudioState) (hs : TracksPlaying s) :
    AtMostOnePlaying s := by
  intro i j hi hj
  have h1 := hs i hi
  have h2 := hs j hj
  rw [h1] at h2
  exact Option.some.inj h2

theorem elemPlaying_iff_of_elems (s t : AudioState) (h : s.elems = t.elems)
    (i : Nat) : ElemPlaying s i ↔ ElemPlaying t i := by
  simp [ElemPlaying, h]

theorem settle_elems (a : Nat) (s : AudioState) :
    (settle a s).elems =
      modifyElem a (fun e => { e with playing := false }) s.elems := by
  by_cases h : s.currentAudio = some a <;> simp [settle, h]

theorem settle_currentAudio (a : Nat) (s : AudioState) :
    (settle a s).currentAudio =
      if s.currentAudio = some a then none else s.currentAudio := by
  by_cases h : s.currentAudio = some a <;> simp [settle, h]

theorem stopAudio_not_playing (s : AudioState) (hs : TracksPlaying s) (i : Nat) :
    ¬ ElemPlaying (stopAudio s) i := by
  rintro ⟨e, he, hp⟩
  cases hcur : s.currentAudio with
  | none =>
      rw [stopAudio_elems_none s hcur] at he
      have h1 := hs i ⟨e, he, hp⟩
      rw [hcur] at h1
      exact Option.noConfusion h1
  | some a =>
      rw [stopAudio_elems_some s hcur] at he
      by_cases hia : i = a
      · subst hia
        rw [lookupElem_modify_self] at he
        rcases h0 : lookupElem i s.elems with _ | e0
        · rw [h0] at he
          exact Option.noConfusion he
        · rw [h0] at he
          have he2 : pauseReset e0 = e := by simpa using he
          rw [← he2] at hp
          simp [pauseReset] at hp
      · rw [lookupElem_modify_ne hia] at he
        have h1 := hs i ⟨e, he, hp⟩
        rw [hcur] at h1
        exact hia (Option.some.inj h1).symm

theorem tracks_stopAudio (s : AudioState) (hs : TracksPlaying s) :
    TracksPlaying (stopAudio s) :=
  fun i hi => absurd hi (stopAudio_not_playing s hs i)

theorem tracks_playUrlStart (url : String) (rate : ℚ) (s : AudioState)
    (hs : TracksPlaying s) : TracksPlaying (playUrlStart url rate s).1 := by
  rintro i ⟨e, he, hp⟩
  by_cases hn : (stopAudio s).nextId = i
  · simp [playUrlStart, hn]
  · have he' : lookupElem i (stopAudio s).elems = some e := by
      simpa [playUrlStart, lookupElem, hn] using he
    exact absurd ⟨e, he', hp⟩ (stopAudio_not_playing s hs i)

theorem tracks_settle (a : Nat) (s : AudioState) (hs : TracksPlaying s) :
    TracksPlaying (settle a s) := by
  rintro i ⟨e, he, hp⟩
  rw [settle_elems] at he
  by_cases hia : i = a
  · subst hia
    rw [lookupElem_modify_self] at he
    rcases h0 : lookupElem i s.elems with _ | e0
    · rw [h0] at he
      exact Option.noConfusion he
    · rw [h0] at he
      have he2 : AudioElem.playing e = false := by
        have := Option.some.inj (by simpa using he.symm)
        rw [this]
      rw [he2] at hp
      exact Bool.noConfusion hp
  · rw [lookupElem_modify_ne hia] at he
    have h1 := hs i ⟨e, he, hp⟩
    rw [settle_currentAudio, if_neg, h1]
    intro hcontra
    rw [h1] at hcontra
    exact hia (Option.some.inj hcontra)

theorem waitForVoicesRun_frame (w : WEnv) (s : AudioState) :
    (waitForVoicesRun w s).1.elems = s.elems ∧
    (waitForVoicesRun w s).1.currentAudio = s.currentAudio ∧
    (waitForVoicesRun w s).1.synthQueue = s.synthQueue ∧
    (waitForVoicesRun w s).1.stopEvents = s.stopEvents ∧
    (waitForVoicesRun w s).1.nextId = s.nextId := by
  unfold waitForVoicesRun
  split
  · simp
  · split
    · simp
    · split <;> simp

/-- Closed form of the state produced by `playTextToSpeechRun`. -/
theorem playTextToSpeechRun_state (text : String) (accent : Accent) (rate : ℚ)
    (repeatCount : Int) (w : WEnv) (s : AudioState) :
    (playTextToSpeechRun text accent rate repeatCount w s).1 =
      if text = "" ∨ repeatCount ≤ 0 then s
      else
        { (waitForVoicesRun w { stopAudio s with synthPaused := false }).1 with
            synthQueue :=
              (waitForVoicesRun w
                  { stopAudio s with synthPaused := false }).1.synthQueue ++
                List.replicate repeatCount.toNat
                  (mkUtterance text rate
                    (selectVoice
                      (waitForVoicesRun w
                          { stopAudio s with synthPaused := false }).2.1
                      (langTagOf accent))
                    (langTagOf accent)) } := by
  by_cases h : text = "" ∨ repeatCount ≤ 0 <;> simp [playTextToSpeechRun, h]

theorem tracks_speak (text : String) (accent : Accent) (rate : ℚ)
    (repeatCount : Int) (w : WEnv) (s : AudioState) (hs : TracksPlaying s) :
    TracksPlaying (playTextToSpeechRun text accent rate repeatCount w s).1 := by
  rw [playTextToSpeechRun_state]
  by_cases h : text = "" ∨ repeatCount ≤ 0
  · rw [if_pos h]
    exact hs
  · rw [if_neg h]
    intro i hi
    have hE : ElemPlaying (stopAudio s) i := by
      refine (elemPlaying_iff_of_elems _ _ ?_ i).mp hi
      simpa using
        (waitForVoicesRun_frame w { stopAudio s with synthPaused := false }).1
    exact absurd hE (stopAudio_not_playing s hs i)

theorem tracks_playUrlRun (url : String) (rate : ℚ) (o : PlayOutcome)
    (s : AudioState) (hs : TracksPlaying s) :
    TracksPlaying (playUrlRun url rate o s).1 := by
  cases o <;> exact tracks_settle _ _ (tracks_playUrlStart url rate s hs)

theorem tracks_word (text : String) (accent : Accent) (speed : ℚ)
    (o : PlayOutcome) (w : WEnv) (s : AudioState) (hs : TracksPlaying s) :
    TracksPlaying (playWordAudioRun text accent speed o w s).1 := by
  unfold playWordAudioRun
  split
  · exact hs
  · cases o
    · exact tracks_playUrlRun _ _ _ _ hs
    · exact tracks_speak _ _ _ _ _ _ (tracks_playUrlRun _ _ _ _ hs)
    · exact tracks_speak _ _ _ _ _ _ (tracks_playUrlRun _ _ _ _ hs)

theorem tracks_sentenceFallback (text : String) (accent : Accent) (speed : ℚ)
    (o2 : PlayOutcome) (w : WEnv) (s : AudioState) (pre : List Attempt)
    (hs : TracksPlaying s) :
    TracksPlaying (playSentenceFallback text accent speed o2 w s pre).1 := by
  unfold playSentenceFallback
  cases o2
  · exact tracks_playUrlRun _ _ _ _ hs
  · exact tracks_speak _ _ _ _ _ _ (tracks_playUrlRun _ _ _ _ hs)
  · exact tracks_speak _ _ _ _ _ _ (tracks_playUrlRun _ _ _ _ hs)

theorem tracks_sentence (text : String) (explicitUrl : Option String)
    (accent : Accent) (speed : ℚ) (o1 o2 : PlayOutcome) (w : WEnv)
    (s : AudioState) (hs : TracksPlaying s) :
    TracksPlaying (playSentenceAudioRun text explicitUrl accent speed o1 o2 w s).1 := by
  cases explicitUrl with
  | none => exact tracks_sentenceFallback _ _ _ _ _ _ _ hs
  | some u =>
      simp only [playSentenceAudioRun]
      by_cases hu : u = ""
      · rw [if_pos hu]
        exact tracks_sentenceFallback _ _ _ _ _ _ _ hs
      · rw [if_neg hu]
        cases o1
        · exact tracks_playUrlRun _ _ _ _ hs
        · exact tracks_sentenceFallback _ _ _ _ _ _ _
            (tracks_playUrlRun _ _ _ _ hs)
        · exact tracks_sentenceFallback _ _ _ _ _ _ _
            (tracks_playUrlRun _ _ _ _ hs)

theorem tracks_updateVoices (v : List Voice) (s : AudioState)
    (hs : TracksPlaying s) : TracksPlaying (updateVoices v s) := by
  unfold updateVoices
  split
  · exact fun i hi => hs i hi
  · exact hs

theorem tracks_runStep (st : Step) (s : AudioState) (hs : TracksPlaying s) :
    TracksPlaying (runStep st s) := by
  cases st with
  | stop => exact tracks_stopAudio s hs
  | playUrl url rate => exact tracks_playUrlStart url rate s hs
  | ended a => exact tracks_settle a s hs
  | error a => exact tracks_settle a s hs
  | speak text accent rate repeatCount w =>
      exact tracks_speak text accent rate repeatCount w s hs
  | word text accent speed o w => exact tracks_word text accent speed o w s hs
  | sentence text explicitUrl accent speed o1 o2 w =>
      exact tracks_sentence text explicitUrl accent speed o1 o2 w s hs
  | voicesChanged v => exact tracks_updateVoices v s hs

theorem tracks_initState : TracksPlaying initState := by
  rintro i ⟨e, he, hp⟩
  simp [initState, lookupElem] at he

theorem tracks_runAll (steps : List Step) (s : AudioState)
    (hs : TracksPlaying s) : TracksPlaying (runAll steps s) := by
  induction steps generalizing s with
  | nil => exact hs
  | cons st rest ih => exact ih (runStep st s) (tracks_runStep st s hs)

theorem playUrlStart_snd (url : String) (rate : ℚ) (s : AudioState) :
    (playUrlStart url rate s).2 = s.nextId := by
  simp [playUrlStart, stopAudio_nextId]

theorem playUrlStart_currentAudio (url : String) (rate : ℚ) (s : AudioState) :
    (playUrlStart url rate s).1.currentAudio = some s.nextId := by
  simp [playUrlStart, stopAudio_nextId]

theorem playUrlStart_nextId (url : String) (rate : ℚ) (s : AudioState) :
    (playUrlStart url rate s).1.nextId = s.nextId + 1 := by
  simp [playUrlStart, stopAudio_nextId]

theorem playUrlStart_synthQueue (url : String) (rate : ℚ) (s : AudioState) :
    (playUrlStart url rate s).1.synthQueue = [] := by
  simp [playUrlStart, stopAudio_synthQueue]

theorem playUrlStart_lookup_self (url : String) (rate : ℚ) (s : AudioState) :
    lookupElem s.nextId (playUrlStart url rate s).1.elems =
      some (mkAudio url rate) := by
  simp [playUrlStart, lookupElem, stopAudio_nextId]

/-- A concrete audio element used by the witnesses. -/
def sampleElem : AudioElem :=
  { url := "https://a.example/one.mp3"
    playbackRate := 1
    playing := true
    currentTime := 1 / 2 }

/-- A concrete state in which element 0 is playing and tracked. -/
def samplePlayingState : AudioState :=
  { initState with
      elems := [(0, sampleElem)]
      currentAudio := some 0
      nextId := 1 }

/-- Claim C1: over every sequence of playback entry-point calls and element
events, at most one tracked audio element is in the playing state at any
instant; each playback start invokes `stopAudio`, which pauses and resets the
previously tracked element and releases the handle, before `playUrl`
registers and starts the new element. -/
theorem c1_single_active_playback :
    (∀ steps : List Step, AtMostOnePlaying (runAll steps initState)) ∧
    (∀ (s : AudioState) (a : Nat) (e : AudioElem),
      s.currentAudio = some a → lookupElem a s.elems = some e →
        lookupElem a (stopAudio s).elems = some (pauseReset e) ∧
          (stopAudio s).currentAudio = none) ∧
    (∀ (url : String) (rate : ℚ) (s : AudioState),
      (playUrlStart url rate s).1 =
        { stopAudio s with
            elems :=
              ((stopAudio s).nextId, mkAudio url rate) :: (stopAudio s).elems
            currentAudio := some (stopAudio s).nextId
            nextId := (stopAudio s).nextId + 1 }) := by
  refine ⟨?_, ?_, ?_⟩
  · intro steps
    exact tracksPlaying_atMostOne _
      (tracks_runAll steps initState tracks_initState)
  · intro s a e hcur he
    refine ⟨?_, stopAudio_currentAudio s⟩
    rw [stopAudio_elems_some s hcur, lookupElem_modify_self, he]
    rfl
  · intro url rate s
    rfl

/-- Witness for C1 at a concrete playing state. -/
theorem c1_single_active_playback_witness :
    lookupElem 0 (stopAudio samplePlayingState).elems =
        some (pauseReset sampleElem) ∧
      (stopAudio samplePlayingState).currentAudio = none :=
  c1_single_active_playback.2.1 samplePlayingState 0 sampleElem rfl rfl

/-- Claim C2: after any `stopAudio` call the tracked handle is null, the
speech-synthesis queue is empty and the stop signal has been dispatched;
called when nothing is playing, its only observable effect is the
re-dispatch of the stop signal. -/
theorem c2_stopAll_contract :
    (∀ s : AudioState,
      (stopAudio s).currentAudio = none ∧
        (stopAudio s).synthQueue = [] ∧
        (stopAudio s).stopEvents = s.stopEvents + 1) ∧
    (∀ s : AudioState, s.currentAudio = none → s.synthQueue = [] →
      stopAudio s = { s with stopEvents := s.stopEvents + 1 }) := by
  constructor
  · intro s
    exact ⟨stopAudio_currentAudio s, stopAudio_synthQueue s,
      stopAudio_stopEvents s⟩
  · intro s h1 h2
    cases s
    simp_all [stopAudio]

/-- Witness for C2 at the idle state. -/
theorem c2_stopAll_contract_witness :
    stopAudio initState = { initState with stopEvents := initState.stopEvents + 1 } :=
  c2_stopAll_contract.2 initState rfl rfl

/-- Claim C3: `playUrl` calls `stopAudio` first, registers the newly
constructed element as the handle and starts it at the given rate; its
promise resolves exactly when playback ends naturally and rejects on a
playback error or an autoplay block; each settlement handler releases the
handle only if it still points at that same element, so after
`playUrl(urlA)` followed by `playUrl(urlB)` a late event from urlA's element
leaves the handle on urlB's element. -/
theorem c3_playUrl_contract :
    (∀ (url : String) (rate : ℚ) (s : AudioState),
      (playUrlStart url rate s).2 = s.nextId ∧
        (playUrlStart url rate s).1.currentAudio = some s.nextId ∧
        (playUrlStart url rate s).1.synthQueue = [] ∧
        lookupElem s.nextId (playUrlStart url rate s).1.elems =
          some (mkAudio url rate)) ∧
    (∀ (url : String) (rate : ℚ) (o : PlayOutcome) (s : AudioState),
      (playUrlRun url rate o s).2 = Except.ok () ↔ o = PlayOutcome.ended) ∧
    (∀ (a : Nat) (s : AudioState),
      (s.currentAudio = some a → (settle a s).currentAudio = none) ∧
        (s.currentAudio ≠ some a →
          (settle a s).currentAudio = s.currentAudio)) ∧
    (∀ (urlA urlB : String) (rA rB : ℚ) (s : AudioState),
      (playUrlStart urlB rB (playUrlStart urlA rA s).1).1.currentAudio =
          some (playUrlStart urlB rB (playUrlStart urlA rA s).1).2 ∧
        (settle (playUrlStart urlA rA s).2
            (playUrlStart urlB rB (playUrlStart urlA rA s).1).1).currentAudio =
          some (playUrlStart urlB rB (playUrlStart urlA rA s).1).2) := by
  refine ⟨?_, ?_, ?_, ?_⟩
  · intro url rate s
    exact ⟨playUrlStart_snd url rate s, playUrlStart_currentAudio url rate s,
      playUrlStart_synthQueue url rate s, playUrlStart_lookup_self url rate s⟩
  · intro url rate o s
    cases o <;> simp [playUrlRun]
  · intro a s
    constructor
    · intro h
      rw [settle_currentAudio, if_pos h]
    · intro h
      rw [settle_currentAudio, if_neg h]
  · intro urlA urlB rA rB s
    simp [settle_currentAudio, playUrlStart_currentAudio, playUrlStart_snd,
      playUrlStart_nextId]

/-- Witness for C3's settlement guard at concrete states: a settlement event
of the tracked element releases the handle, one of a stale element does not. -/
theorem c3_playUrl_contract_witness :
    (settle 0 samplePlayingState).currentAudio = none ∧
      (settle 1 samplePlayingState).currentAudio = some 0 := by
  constructor
  · exact (c3_playUrl_contract.2.2.1 0 samplePlayingState).1 rfl
  · have h := (c3_playUrl_contract.2.2.1 1 samplePlayingState).2 (by decide)
    rw [h]
    rfl

theorem settle_synthQueue (a : Nat) (s : AudioState) :
    (settle a s).synthQueue = s.synthQueue := by
  by_cases h : s.currentAudio = some a <;> simp [settle, h]

theorem settle_stopEvents (a : Nat) (s : AudioState) :
    (settle a s).stopEvents = s.stopEvents := by
  by_cases h : s.currentAudio = some a <;> simp [settle, h]

theorem settle_cachedVoices (a : Nat) (s : AudioState) :
    (settle a s).cachedVoices = s.cachedVoices := by
  by_cases h : s.currentAudio = some a <;> simp [settle, h]

theorem settle_nextId (a : Nat) (s : AudioState) :
    (settle a s).nextId = s.nextId := by
  by_cases h : s.currentAudio = some a <;> simp [settle, h]

theorem playUrlRun_fst_synthQueue (url : String) (rate : ℚ) (o : PlayOutcome)
    (s : AudioState) : (playUrlRun url rate o s).1.synthQueue = [] := by
  cases o <;> simp [playUrlRun, settle_synthQueue, playUrlStart_synthQueue]

theorem playUrlStart_stopEvents (url : String) (rate : ℚ) (s : AudioState) :
    (playUrlStart url rate s).1.stopEvents = s.stopEvents + 1 := by
  simp [playUrlStart, stopAudio_stopEvents]

theorem playUrlRun_fst_stopEvents (url : String) (rate : ℚ) (o : PlayOutcome)
    (s : AudioState) : (playUrlRun url rate o s).1.stopEvents = s.stopEvents + 1 := by
  cases o <;> simp [playUrlRun, settle_stopEvents, playUrlStart_stopEvents]

/-- An environment for `waitForVoices` in which the platform has no voices
and never fires the availability notification. -/
def emptyWEnv : WEnv :=
  { voicesAtCall := [], changeEvents := [], voicesAtTimeout := [] }

/-- Claim C4: the fallback chains of `playWordAudio` and `playSentenceAudio`
try each strategy at most once in a fixed order: the word chain is the
dictionary URL, then exactly one `speak(text, accent, speed, 1)` call; the
sentence chain with a supplied explicit URL is that URL, then the generic
dictionary URL, then one TTS call; and a successful remote step leaves no
TTS utterance queued. -/
theorem c4_fallback_chain :
    (∀ (text : String) (accent : Accent) (speed : ℚ) (o : PlayOutcome)
        (w : WEnv) (s : AudioState), text ≠ "" →
      (playWordAudioRun text accent speed o w s).2.1 =
        if o = PlayOutcome.ended then
          [Attempt.remote (dictVoiceUrl text accent) speed]
        else
          [Attempt.remote (dictVoiceUrl text accent) speed,
            Attempt.tts text accent speed 1]) ∧
    (∀ (text : String) (accent : Accent) (speed : ℚ) (o : PlayOutcome)
        (w : WEnv) (s : AudioState), text ≠ "" → o = PlayOutcome.ended →
      (playWordAudioRun text accent speed o w s).1.synthQueue = []) ∧
    (∀ (text u : String) (accent : Accent) (speed : ℚ) (o1 o2 : PlayOutcome)
        (w : WEnv) (s : AudioState), u ≠ "" →
      (playSentenceAudioRun text (some u) accent speed o1 o2 w s).2.1 =
        if o1 = PlayOutcome.ended then [Attempt.remote u speed]
        else if o2 = PlayOutcome.ended then
          [Attempt.remote u speed,
            Attempt.remote (dictVoiceUrl text accent) speed]
        else
          [Attempt.remote u speed,
            Attempt.remote (dictVoiceUrl text accent) speed,
            Attempt.tts text accent speed 1]) ∧
    (∀ (text u : String) (accent : Accent) (speed : ℚ) (o1 o2 : PlayOutcome)
        (w : WEnv) (s : AudioState), u ≠ "" →
      o1 = PlayOutcome.ended ∨ o2 = PlayOutcome.ended →
      (playSentenceAudioRun text (some u) accent speed o1 o2 w s).1.synthQueue = []) := by
  refine ⟨?_, ?_, ?_, ?_⟩
  · intro text accent speed o w s ht
    unfold playWordAudioRun
    rw [if_neg ht]
    cases o <;> simp [playUrlRun]
  · intro text accent speed o w s ht ho
    subst ho
    unfold playWordAudioRun
    rw [if_neg ht]
    simp [playUrlRun, settle_synthQueue, playUrlStart_synthQueue]
  · intro text u accent speed o1 o2 w s hu
    simp only [playSentenceAudioRun]
    rw [if_neg hu]
    cases o1
    · simp [playUrlRun]
    · cases o2 <;> simp [playUrlRun, playSentenceFallback]
    · cases o2 <;> simp [playUrlRun, playSentenceFallback]
  · intro text u accent speed o1 o2 w s hu ho
    simp only [playSentenceAudioRun]
    rw [if_neg hu]
    rcases ho with h | h
    · subst h
      simp [playUrlRun, settle_synthQueue, playUrlStart_synthQueue]
    · subst h
      cases o1 <;>
        simp [playUrlRun, playSentenceFallback, settle_synthQueue,
          playUrlStart_synthQueue]

/-- Witness for C4: a failing dictionary attempt for a word falls back to one
TTS call at the same rate. -/
theorem c4_fallback_chain_witness :
    (playWordAudioRun "hello" Accent.US 1 PlayOutcome.error emptyWEnv
        initState).2.1 =
      [Attempt.remote (dictVoiceUrl "hello" Accent.US) 1,
        Attempt.tts "hello" Accent.US 1 1] := by
  have h := c4_fallback_chain.1 "hello" Accent.US 1 PlayOutcome.error emptyWEnv
    initState (by decide)
  simpa using h

theorem waitForVoicesRun_elems (w : WEnv) (s : AudioState) :
    (waitForVoicesRun w s).1.elems = s.elems :=
  (waitForVoicesRun_frame w s).1

theorem waitForVoicesRun_currentAudio (w : WEnv) (s : AudioState) :
    (waitForVoicesRun w s).1.currentAudio = s.currentAudio :=
  (waitForVoicesRun_frame w s).2.1

theorem waitForVoicesRun_synthQueue (w : WEnv) (s : AudioState) :
    (waitForVoicesRun w s).1.synthQueue = s.synthQueue :=
  (waitForVoicesRun_frame w s).2.2.1

theorem waitForVoicesRun_stopEvents (w : WEnv) (s : AudioState) :
    (waitForVoicesRun w s).1.stopEvents = s.stopEvents :=
  (waitForVoicesRun_frame w s).2.2.2.1

/-- Claim C5: `speak` is a no-op when the text is empty or the repeat count
is at most zero; otherwise it stops current playback first and queues exactly
`repeatCount` utterances, each clamped to the rate `max(0.1, min(10, rate))`,
so a requested rate of 0.05 becomes 0.1. -/
theorem c5_speak_contract :
    (∀ (text : String) (accent : Accent) (rate : ℚ) (repeatCount : Int)
        (w : WEnv) (s : AudioState), text = "" ∨ repeatCount ≤ 0 →
      playTextToSpeechRun text accent rate repeatCount w s = (s, Except.ok ())) ∧
    (∀ (text : String) (accent : Accent) (rate : ℚ) (repeatCount : Int)
        (w : WEnv) (s : AudioState), text ≠ "" → 0 < repeatCount →
      (playTextToSpeechRun text accent rate repeatCount w s).1.synthQueue.length =
          repeatCount.toNat ∧
        (∀ u ∈ (playTextToSpeechRun text accent rate repeatCount w s).1.synthQueue,
          u.rate = max (1 / 10) (min 10 rate)) ∧
        (playTextToSpeechRun text accent rate repeatCount w s).1.currentAudio =
          none ∧
        (playTextToSpeechRun text accent rate repeatCount w s).1.stopEvents =
          s.stopEvents + 1) ∧
    safeRate (1 / 20) = 1 / 10 := by
  refine ⟨?_, ?_, ?_⟩
  · intro text accent rate repeatCount w s h
    unfold playTextToSpeechRun
    rw [if_pos h]
  · intro text accent rate repeatCount w s ht hrc
    have hguard : ¬(text = "" ∨ repeatCount ≤ 0) := by
      rintro (h | h)
      · exact ht h
      · exact absurd hrc (not_lt.mpr h)
    rw [playTextToSpeechRun_state, if_neg hguard]
    refine ⟨?_, ?_, ?_, ?_⟩
    · simp [waitForVoicesRun_synthQueue, stopAudio_synthQueue]
    · intro u hu
      simp only [waitForVoicesRun_synthQueue, stopAudio_synthQueue,
        List.nil_append] at hu
      have hrep := List.eq_of_mem_replicate hu
      rw [hrep]
      simp [mkUtterance, safeRate]
    · simp [waitForVoicesRun_currentAudio, stopAudio_currentAudio]
    · simp [waitForVoicesRun_stopEvents, stopAudio_stopEvents]
  · unfold safeRate
    rw [min_eq_right (by norm_num), max_eq_left (by norm_num)]

/-- Witness for C5: the no-op guard at empty text, and a repeat count of 2
queuing two utterances. -/
theorem c5_speak_contract_witness :
    playTextToSpeechRun "" Accent.US 1 1 emptyWEnv initState =
        (initState, Except.ok ()) ∧
      (playTextToSpeechRun "hi" Accent.UK (1 / 20) 2 emptyWEnv
          initState).1.synthQueue.length = 2 := by
  constructor
  · exact c5_speak_contract.1 "" Accent.US 1 1 emptyWEnv initState (Or.inl rfl)
  · have h := (c5_speak_contract.2.1 "hi" Accent.UK (1 / 20) 2 emptyWEnv
      initState (by decide) (by decide)).1
    rw [h]
    rfl

/-- An Australian-English voice, listed before any other English voice in the
counterexample catalog. -/
def auVoice : Voice := { name := "Karen", lang := "en-AU" }

/-- A United States English voice. -/
def usVoice : Voice := { name := "Sam", lang := "en-US" }

/-- Counterexample to claim C6 as stated: in the catalog
`[en-AU, en-US]` no `en-GB` voice exists and an `en-US` voice does, yet the
fallback selects the `en-AU` voice (the first English-family voice in the
catalog), not the `en-US` voice. -/
theorem c6_voice_selection_counterexample :
    (∀ v ∈ [auVoice, usVoice], v.lang ≠ "en-GB") ∧
      usVoice ∈ [auVoice, usVoice] ∧ usVoice.lang = "en-US" ∧
      selectVoice [auVoice, usVoice] "en-GB" = some auVoice ∧
      auVoice.lang ≠ "en-US" := by
  decide

/-- Claim C6 (amended): `speak` selects the utterance voice by exact locale
match on the accent's tag; when no exact match exists it falls back to the
first voice of the English language family — in particular, when no `en-GB`
voice exists and the first English-family voice is an `en-US` voice, that
`en-US` voice is selected; when no voice matches at all, no voice is assigned
and the utterance's `lang` defaults to the target tag; and the utterances
queued by `speak` carry exactly this selected voice. -/
theorem c6_voice_selection :
    (∀ (voices : List Voice) (tag : String) (v : Voice),
      voices.find? (fun x => x.lang == tag) = some v →
        selectVoice voices tag = some v) ∧
    (∀ (voices : List Voice) (tag : String),
      voices.find? (fun x => x.lang == tag) = none →
        selectVoice voices tag =
          voices.find? (fun x => strStartsWith x.lang "en")) ∧
    (∀ (voices : List Voice) (v : Voice),
      voices.find? (fun x => x.lang == "en-GB") = none →
        voices.find? (fun x => strStartsWith x.lang "en") = some v →
        v.lang = "en-US" → selectVoice voices "en-GB" = some v) ∧
    (∀ (text : String) (rate : ℚ) (tag : String),
      (mkUtterance text rate none tag).voice = none ∧
        (mkUtterance text rate none tag).lang = tag) ∧
    (∀ (text : String) (accent : Accent) (rate : ℚ) (repeatCount : Int)
        (w : WEnv) (s : AudioState) (u : Utterance),
      text ≠ "" → 0 < repeatCount →
      u ∈ (playTextToSpeechRun text accent rate repeatCount w s).1.synthQueue →
        u.voice =
          selectVoice
            (waitForVoicesRun w { stopAudio s with synthPaused := false }).2.1
            (langTagOf accent)) := by
  refine ⟨?_, ?_, ?_, ?_, ?_⟩
  · intro voices tag v h
    unfold selectVoice
    rw [h]
    rfl
  · intro voices tag h
    unfold selectVoice
    rw [h]
    rfl
  · intro voices v hgb hen hus
    unfold selectVoice
    rw [hgb, hen]
    rfl
  · intro text rate tag
    exact ⟨rfl, rfl⟩
  · intro text accent rate repeatCount w s u ht hrc hu
    have hguard : ¬(text = "" ∨ repeatCount ≤ 0) := by
      rintro (h | h)
      · exact ht h
      · exact absurd hrc (not_lt.mpr h)
    rw [playTextToSpeechRun_state, if_neg hguard] at hu
    simp only [List.mem_append] at hu
    rcases hu with h | h
    · rw [waitForVoicesRun_synthQueue] at h
      simp [stopAudio_synthQueue] at h
    · rw [List.eq_of_mem_replicate h]
      rfl

/-- Witness for C6 (amended): with `en-US` as the only voice and a UK
request, the `en-US` voice is selected. -/
theorem c6_voice_selection_witness :
    selectVoice [usVoice] "en-GB" = some usVoice :=
  c6_voice_selection.2.2.1 [usVoice] usVoice (by decide) (by decide) rfl

/-- Claim C7: `waitForVoices` resolves immediately with the cached catalog
when voices are already cached; otherwise it resolves at once when the
platform reports a non-empty list synchronously, else with the first
non-empty `voiceschanged` delivery before the timeout (with that list, at
that time, caching it), else at exactly 2000 ms with whatever the platform
then has, possibly empty; in particular, with zero voices and no
notification it resolves with the empty list at 2000 ms, not before; being a
total function of its environment, it never rejects. -/
theorem c7_waitForVoices_contract :
    (∀ (w : WEnv) (s : AudioState), s.isLoaded = true → s.cachedVoices ≠ [] →
      waitForVoicesRun w s = (s, s.cachedVoices, 0)) ∧
    (∀ (w : WEnv) (s : AudioState),
      ¬(s.isLoaded = true ∧ s.cachedVoices ≠ []) → w.voicesAtCall ≠ [] →
      waitForVoicesRun w s =
        ({ s with cachedVoices := w.voicesAtCall, isLoaded := true },
          w.voicesAtCall, 0)) ∧
    (∀ (w : WEnv) (s : AudioState) (t : Nat) (v : List Voice),
      ¬(s.isLoaded = true ∧ s.cachedVoices ≠ []) → w.voicesAtCall = [] →
      firstChange w.changeEvents = some (t, v) →
      waitForVoicesRun w s =
        ({ s with cachedVoices := v, isLoaded := true }, v, t)) ∧
    (∀ (w : WEnv) (s : AudioState),
      ¬(s.isLoaded = true ∧ s.cachedVoices ≠ []) → w.voicesAtCall = [] →
      firstChange w.changeEvents = none →
      waitForVoicesRun w s = (s, w.voicesAtTimeout, 2000)) ∧
    (∀ (w : WEnv) (s : AudioState),
      ¬(s.isLoaded = true ∧ s.cachedVoices ≠ []) → w.voicesAtCall = [] →
      firstChange w.changeEvents = none → w.voicesAtTimeout = [] →
      waitForVoicesRun w s = (s, [], 2000)) := by
  refine ⟨?_, ?_, ?_, ?_, ?_⟩
  · intro w s h1 h2
    unfold waitForVoicesRun
    rw [if_pos ⟨h1, h2⟩]
  · intro w s hnc hcall
    unfold waitForVoicesRun
    rw [if_neg hnc, if_pos hcall]
  · intro w s t v hnc hcall hchange
    unfold waitForVoicesRun
    rw [if_neg hnc, if_neg (by simp [hcall]), hchange]
  · intro w s hnc hcall hchange
    unfold waitForVoicesRun
    rw [if_neg hnc, if_neg (by simp [hcall]), hchange]
  · intro w s hnc hcall hchange htime
    unfold waitForVoicesRun
    rw [if_neg hnc, if_neg (by simp [hcall]), hchange]
    simp [htime]

/-- Witness for C7: a never-loading platform resolves with the empty list at
2000 ms; a cached catalog resolves immediately; a non-empty notification at
500 ms resolves with its list at 500 ms; voices present only at the timeout
are returned at 2000 ms. -/
theorem c7_waitForVoices_contract_witness :
    waitForVoicesRun emptyWEnv initState = (initState, [], 2000) ∧
      waitForVoicesRun emptyWEnv
          { initState with cachedVoices := [usVoice], isLoaded := true } =
        ({ initState with cachedVoices := [usVoice], isLoaded := true },
          [usVoice], 0) ∧
      waitForVoicesRun
          { voicesAtCall := [], changeEvents := [(500, [usVoice])],
            voicesAtTimeout := [usVoice] } initState =
        ({ initState with cachedVoices := [usVoice], isLoaded := true },
          [usVoice], 500) ∧
      waitForVoicesRun
          { voicesAtCall := [], changeEvents := [],
            voicesAtTimeout := [auVoice] } initState =
        (initState, [auVoice], 2000) := by
  refine ⟨?_, ?_, ?_, ?_⟩
  · exact c7_waitForVoices_contract.2.2.2.2 emptyWEnv initState (by decide)
      rfl rfl rfl
  · exact c7_waitForVoices_contract.1 emptyWEnv
      { initState with cachedVoices := [usVoice], isLoaded := true } rfl
      (by decide)
  · exact c7_waitForVoices_contract.2.2.1
      { voicesAtCall := [], changeEvents := [(500, [usVoice])],
        voicesAtTimeout := [usVoice] } initState 500 [usVoice] (by decide)
      rfl (by decide)
  · exact c7_waitForVoices_contract.2.2.2.1
      { voicesAtCall := [], changeEvents := [],
        voicesAtTimeout := [auVoice] } initState (by decide) rfl rfl

/-- Claim C8: the entry points `speak`, `playWordAudio` and
`playSentenceAudio` never reject: for every input, environment and remote
outcome, the promise each returns settles with a resolution. -/
theorem c8_entry_points_never_reject :
    ∀ (text : String) (accent : Accent) (rate : ℚ) (repeatCount : Int)
      (w : WEnv) (s : AudioState) (o o1 o2 : PlayOutcome)
      (explicitUrl : Option String),
      (playTextToSpeechRun text accent rate repeatCount w s).2 =
          Except.ok () ∧
        (playWordAudioRun text accent rate o w s).2.2 = Except.ok () ∧
        (playSentenceAudioRun text explicitUrl accent rate o1 o2 w s).2.2 =
          Except.ok () := by
  intro text accent rate repeatCount w s o o1 o2 explicitUrl
  refine ⟨?_, ?_, ?_⟩
  · unfold playTextToSpeechRun
    split <;> rfl
  · unfold playWordAudioRun
    split
    · rfl
    · cases o <;> simp [playUrlRun]
  · cases explicitUrl with
    | none =>
        cases o2 <;>
          simp [playSentenceAudioRun, playSentenceFallback, playUrlRun]
    | some u =>
        simp only [playSentenceAudioRun]
        by_cases hu : u = ""
        · rw [if_pos hu]
          cases o2 <;> simp [playSentenceFallback, playUrlRun]
        · rw [if_neg hu]
          cases o1
          · simp [playUrlRun]
          · cases o2 <;> simp [playSentenceFallback, playUrlRun]
          · cases o2 <;> simp [playSentenceFallback, playUrlRun]

theorem updateVoices_cached_ne (v : List Voice) (s : AudioState)
    (h : s.cachedVoices ≠ []) : (updateVoices v s).cachedVoices ≠ [] := by
  unfold updateVoices
  split
  · next hv => exact List.ne_nil_of_length_pos hv
  · exact h

theorem waitForVoicesRun_cached_ne (w : WEnv) (s : AudioState)
    (h : s.cachedVoices ≠ []) : (waitForVoicesRun w s).1.cachedVoices ≠ [] := by
  unfold waitForVoicesRun
  split
  · exact h
  · split
    · next hvc => exact hvc
    · split
      · next t v heq =>
          unfold firstChange at heq
          have hp := List.find?_some heq
          exact (of_decide_eq_true hp).2
      · exact h

theorem playTextToSpeechRun_cached_ne (text : String) (accent : Accent)
    (rate : ℚ) (repeatCount : Int) (w : WEnv) (s : AudioState)
    (h : s.cachedVoices ≠ []) :
    (playTextToSpeechRun text accent rate repeatCount w s).1.cachedVoices ≠ [] := by
  rw [playTextToSpeechRun_state]
  split
  · exact h
  · have h2 : ({ stopAudio s with synthPaused := false } :
        AudioState).cachedVoices ≠ [] := by
      simpa [stopAudio_cachedVoices] using h
    exact waitForVoicesRun_cached_ne w _ h2

theorem playUrlStart_cachedVoices (url : String) (rate : ℚ) (s : AudioState) :
    (playUrlStart url rate s).1.cachedVoices = s.cachedVoices := by
  simp [playUrlStart, stopAudio_cachedVoices]

theorem playUrlRun_cachedVoices (url : String) (rate : ℚ) (o : PlayOutcome)
    (s : AudioState) :
    (playUrlRun url rate o s).1.cachedVoices = s.cachedVoices := by
  cases o <;> simp [playUrlRun, settle_cachedVoices, playUrlStart_cachedVoices]

theorem playWordAudioRun_cached_ne (text : String) (accent : Accent)
    (speed : ℚ) (o : PlayOutcome) (w : WEnv) (s : AudioState)
    (h : s.cachedVoices ≠ []) :
    (playWordAudioRun text accent speed o w s).1.cachedVoices ≠ [] := by
  unfold playWordAudioRun
  split
  · exact h
  · cases o
    · simpa [playUrlRun, settle_cachedVoices, playUrlStart_cachedVoices] using h
    · exact playTextToSpeechRun_cached_ne _ _ _ _ _ _
        (by simpa [playUrlRun_cachedVoices] using h)
    · exact playTextToSpeechRun_cached_ne _ _ _ _ _ _
        (by simpa [playUrlRun_cachedVoices] using h)

theorem playSentenceFallback_cached_ne (text : String) (accent : Accent)
    (speed : ℚ) (o2 : PlayOutcome) (w : WEnv) (s : AudioState)
    (pre : List Attempt) (h : s.cachedVoices ≠ []) :
    (playSentenceFallback text accent speed o2 w s pre).1.cachedVoices ≠ [] := by
  unfold playSentenceFallback
  cases o2
  · simpa [playUrlRun, settle_cachedVoices, playUrlStart_cachedVoices] using h
  · exact playTextToSpeechRun_cached_ne _ _ _ _ _ _
      (by simpa [playUrlRun_cachedVoices] using h)
  · exact playTextToSpeechRun_cached_ne _ _ _ _ _ _
      (by simpa [playUrlRun_cachedVoices] using h)

theorem playSentenceAudioRun_cached_ne (text : String)
    (explicitUrl : Option String) (accent : Accent) (speed : ℚ)
    (o1 o2 : PlayOutcome) (w : WEnv) (s : AudioState)
    (h : s.cachedVoices ≠ []) :
    (playSentenceAudioRun text explicitUrl accent speed o1 o2 w s).1.cachedVoices ≠ [] := by
  cases explicitUrl with
  | none => exact playSentenceFallback_cached_ne _ _ _ _ _ _ _ h
  | some u =>
      simp only [playSentenceAudioRun]
      by_cases hu : u = ""
      · rw [if_pos hu]
        exact playSentenceFallback_cached_ne _ _ _ _ _ _ _ h
      · rw [if_neg hu]
        cases o1
        · simpa [playUrlRun, settle_cachedVoices, playUrlStart_cachedVoices]
            using h
        · exact playSentenceFallback_cached_ne _ _ _ _ _ _ _
            (by simpa [playUrlRun_cachedVoices] using h)
        · exact playSentenceFallback_cached_ne _ _ _ _ _ _ _
            (by simpa [playUrlRun_cachedVoices] using h)

/-- Claim C9: once the cached voice catalog is non-empty, no operation ever
replaces it with an empty list: the preload refresh callback overwrites the
cache only with a non-empty platform list, the `waitForVoices` paths
overwrite it only with non-empty lists, and every coordinator step preserves
non-emptiness of the cache. -/
theorem c9_cached_voices_never_emptied :
    (∀ (v : List Voice) (s : AudioState),
      (updateVoices v s).cachedVoices =
        if v.length > 0 then v else s.cachedVoices) ∧
    (∀ (v : List Voice) (s : AudioState), s.cachedVoices ≠ [] →
      (updateVoices v s).cachedVoices ≠ []) ∧
    (∀ (w : WEnv) (s : AudioState), s.cachedVoices ≠ [] →
      (waitForVoicesRun w s).1.cachedVoices ≠ []) ∧
    (∀ (st : Step) (s : AudioState), s.cachedVoices ≠ [] →
      (runStep st s).cachedVoices ≠ []) := by
  refine ⟨?_, ?_, ?_, ?_⟩
  · intro v s
    unfold updateVoices
    split <;> rfl
  · exact updateVoices_cached_ne
  · exact waitForVoicesRun_cached_ne
  · intro st s h
    cases st with
    | stop => simpa [runStep, stopAudio_cachedVoices] using h
    | playUrl url rate => simpa [runStep, playUrlStart_cachedVoices] using h
    | ended a => simpa [runStep, settle_cachedVoices] using h
    | error a => simpa [runStep, settle_cachedVoices] using h
    | speak text accent rate repeatCount w =>
        exact playTextToSpeechRun_cached_ne text accent rate repeatCount w s h
    | word text accent speed o w =>
        exact playWordAudioRun_cached_ne text accent speed o w s h
    | sentence text explicitUrl accent speed o1 o2 w =>
        exact playSentenceAudioRun_cached_ne text explicitUrl accent speed
          o1 o2 w s h
    | voicesChanged v => exact updateVoices_cached_ne v s h

/-- Witness for C9: a non-empty cache survives a refresh that reports no
voices. -/
theorem c9_cached_voices_never_emptied_witness :
    (updateVoices []
        { initState with cachedVoices := [usVoice], isLoaded := true }).cachedVoices ≠
      [] :=
  c9_cached_voices_never_emptied.2.1 []
    { initState with cachedVoices := [usVoice], isLoaded := true } (by decide)

theorem playUrlRun_lookup_stale (url : String) (rate : ℚ) (o : PlayOutcome)
    (s : AudioState) {a : Nat} {e : AudioElem} (hne : a ≠ s.nextId)
    (hcur : s.currentAudio = some a) (he : lookupElem a s.elems = some e) :
    lookupElem a (playUrlRun url rate o s).1.elems = some (pauseReset e) := by
  have h1 : (playUrlStart url rate s).1.elems =
      (s.nextId, mkAudio url rate) :: modifyElem a pauseReset s.elems := by
    simp [playUrlStart, stopAudio_elems_some s hcur, stopAudio_nextId]
  have h2 : (playUrlRun url rate o s).1.elems =
      modifyElem s.nextId (fun x => { x with playing := false })
        ((s.nextId, mkAudio url rate) :: modifyElem a pauseReset s.elems) := by
    cases o <;> simp [playUrlRun, settle_elems, playUrlStart_snd, h1]
  rw [h2]
  simp [modifyElem, lookupElem, Ne.symm hne, lookupElem_modify_self, he,
    pauseReset]

/-- Claim C10: the empty-text guard is asymmetric: `playWordAudio` with empty
text returns immediately with no observable effect, while
`playSentenceAudio` with empty text and no explicit URL still stops the
current playback (pausing and resetting the tracked element), dispatches the
stop signal and attempts the dictionary lookup URL built from the empty
string. -/
theorem c10_empty_text_guard :
    (∀ (accent : Accent) (speed : ℚ) (o : PlayOutcome) (w : WEnv)
        (s : AudioState),
      playWordAudioRun "" accent speed o w s = (s, [], Except.ok ())) ∧
    (∀ (accent : Accent) (speed : ℚ) (o1 o2 : PlayOutcome) (w : WEnv)
        (s : AudioState),
      (playSentenceAudioRun "" none accent speed o1 o2 w s).1.stopEvents =
          s.stopEvents + 1 ∧
        (playSentenceAudioRun "" none accent speed o1 o2 w s).2.1 =
          (if o2 = PlayOutcome.ended then
            [Attempt.remote (dictVoiceUrl "" accent) speed]
          else
            [Attempt.remote (dictVoiceUrl "" accent) speed,
              Attempt.tts "" accent speed 1])) ∧
    (∀ (accent : Accent) (speed : ℚ) (o1 o2 : PlayOutcome) (w : WEnv)
        (s : AudioState) (a : Nat) (e : AudioElem), a ≠ s.nextId →
      s.currentAudio = some a → lookupElem a s.elems = some e →
      lookupElem a
          ((playSentenceAudioRun "" none accent speed o1 o2 w s).1).elems =
        some (pauseReset e)) := by
  refine ⟨?_, ?_, ?_⟩
  · intro accent speed o w s
    rfl
  · intro accent speed o1 o2 w s
    constructor
    · cases o2 <;>
        simp [playSentenceAudioRun, playSentenceFallback, playUrlRun,
          playTextToSpeechRun, settle_stopEvents, playUrlStart_stopEvents]
    · cases o2 <;> simp [playSentenceAudioRun, playSentenceFallback, playUrlRun]
  · intro accent speed o1 o2 w s a e hne hcur he
    have hstale := playUrlRun_lookup_stale (dictVoiceUrl "" accent) speed o2 s
      hne hcur he
    cases o2 with
    | ended =>
        simpa [playSentenceAudioRun, playSentenceFallback, playUrlRun]
          using hstale
    | error =>
        have hnoop : (playTextToSpeechRun "" accent speed 1 w
            (playUrlRun (dictVoiceUrl "" accent) speed PlayOutcome.error s).1).1 =
            (playUrlRun (dictVoiceUrl "" accent) speed PlayOutcome.error s).1 := by
          rw [playTextToSpeechRun_state, if_pos (Or.inl rfl)]
        simpa [playSentenceAudioRun, playSentenceFallback, playUrlRun, hnoop]
          using hstale
    | blocked =>
        have hnoop : (playTextToSpeechRun "" accent speed 1 w
            (playUrlRun (dictVoiceUrl "" accent) speed PlayOutcome.blocked s).1).1 =
            (playUrlRun (dictVoiceUrl "" accent) speed PlayOutcome.blocked s).1 := by
          rw [playTextToSpeechRun_state, if_pos (Or.inl rfl)]
        simpa [playSentenceAudioRun, playSentenceFallback, playUrlRun, hnoop]
          using hstale

/-- Witness for C10: with element 0 playing and tracked, an empty-text
sentence request still pauses and resets it. -/
theorem c10_empty_text_guard_witness :
    lookupElem 0 ((playSentenceAudioRun "" none Accent.US 1 PlayOutcome.ended
          PlayOutcome.ended emptyWEnv samplePlayingState).1).elems =
      some (pauseReset sampleElem) :=
  c10_empty_text_guard.2.2 Accent.US 1 PlayOutcome.ended PlayOutcome.ended
    emptyWEnv samplePlayingState 0 sampleElem (by decide) rfl rfl
